import Mathlib

/-!
Verification of the grid-construction, settings-persistence and per-frame
drawing logic of the memento-mori wallpaper app (src/script.js), as a shallow
embedding in Lean.  Machine numbers of the JavaScript source are modelled as
`Int`, `Nat` and `ℚ` (every numeric computation the embedded code performs is
exact in IEEE doubles at the magnitudes involved); `Math.sin` is an explicit
function parameter of the draw model.
-/

set_option maxRecDepth 10000

namespace MementoMori

/-! ## Grid data model (Renderer.buildGrid, script.js:106-141) -/

/-- Status of a day cell: the source's strings 'past' / 'today' / 'future'. -/
inductive Status where
  | past
  | today
  | future
deriving DecidableEq

/-- A non-empty grid cell `{ day: dayCount, status }` (script.js:133). -/
structure Cell where
  day : Nat
  status : Status
deriving DecidableEq

/-- A grid is a list of rows; a row holds `null` (padding) or a day cell. -/
abbrev Grid := List (List (Option Cell))

/-- Source constant `this.cols = 7` (script.js:80). -/
def cols : Nat := 7

/-- Source constant `this.dotGapX = 28` (script.js:81). -/
def dotGapX : ℚ := 28

/-- Source constant `this.dotGapY = 14` (script.js:82). -/
def dotGapY : ℚ := 14

/-- Leap-year test of script.js:107:
`(year % 4 === 0 && year % 100 !== 0) || (year % 400 === 0)`.
JavaScript `%` is the truncated remainder, `Int.tmod`. -/
def isLeap (year : Int) : Bool :=
  (year.tmod 4 == 0 && year.tmod 100 != 0) || (year.tmod 400 == 0)

/-- `totalDays = isLeap ? 366 : 365` (script.js:108). -/
def totalDaysOf (year : Int) : Nat :=
  if isLeap year then 366 else 365

/-- Day number of January 1 of year `y`, counted from January 1 of year 1,
in the proleptic Gregorian calendar with astronomical year numbering (the
calendar ECMAScript time values use). -/
def jan1DayNumber (y : Int) : Int :=
  365 * (y - 1) + (y - 1).fdiv 4 - (y - 1).fdiv 100 + (y - 1).fdiv 400

/-- Weekday (0 = Sunday .. 6 = Saturday) of January 1 of year `y` in the
proleptic Gregorian calendar: January 1 of year 1 is a Monday (= 1). -/
def weekdaySun0OfJan1 (y : Int) : Nat :=
  ((jan1DayNumber y + 1).emod 7).toNat

/-- Model of `new Date(year, 0, 1).getDay()` (script.js:113).  Per ECMAScript
(MakeFullYear), the two-argument-plus Date constructor maps an integer year
in 0..99 to 1900 + year; `getDay` returns the weekday with 0 = Sunday. -/
def jsDateJan1GetDay (year : Int) : Nat :=
  weekdaySun0OfJan1 (if 0 ≤ year ∧ year ≤ 99 then year + 1900 else year)

/-- `offset = (startDay + 6) % 7` (script.js:114): Monday-indexed offset. -/
def offsetOf (year : Int) : Nat :=
  (jsDateJan1GetDay year + 6) % 7

/-- `rows = Math.ceil(totalCells / this.cols)` with
`totalCells = offset + totalDays` (script.js:116-117); on naturals the
ceiling of `x / 7` is `(x + 6) / 7`. -/
def rowsOf (year : Int) : Nat :=
  (offsetOf year + totalDaysOf year + 6) / 7

/-- Status assignment of script.js:129-131: `'future'` by default, `'past'`
when `dayCount < currentDayOfYear`, `'today'` when equal. -/
def cellStatus (dayCount : Nat) (currentDayOfYear : Int) : Status :=
  if (dayCount : Int) < currentDayOfYear then .past
  else if (dayCount : Int) = currentDayOfYear then .today
  else .future

/-- Inner cell loop of script.js:124-136 over the listed flat indices `idx`,
threading the mutable `dayCount`: pushes `null` when
`idx < offset || dayCount > totalDays`, otherwise pushes the day cell and
increments `dayCount`.  Returns the produced cells and the final `dayCount`. -/
def fillCells (offset totalDays : Nat) (cur : Int) :
    List Nat → Nat → List (Option Cell) × Nat
  | [], dayCount => ([], dayCount)
  | idx :: rest, dayCount =>
    if idx < offset ∨ totalDays < dayCount then
      let p := fillCells offset totalDays cur rest dayCount
      (none :: p.1, p.2)
    else
      let p := fillCells offset totalDays cur rest (dayCount + 1)
      (some ⟨dayCount, cellStatus dayCount cur⟩ :: p.1, p.2)

/-- Outer row loop of script.js:122-137: builds `n` more rows starting at row
index `r` with the given incoming `dayCount`; row `r` covers flat indices
`r * cols + c` for `c = 0 .. cols - 1` (script.js:125). -/
def fillRows (offset totalDays : Nat) (cur : Int) :
    Nat → Nat → Nat → Grid
  | 0, _, _ => []
  | n + 1, r, dayCount =>
    let p := fillCells offset totalDays cur
      ((List.range cols).map (fun c => r * cols + c)) dayCount
    p.1 :: fillRows offset totalDays cur n (r + 1) p.2

/-- `Renderer.buildGrid(year, currentDayOfYear)` (script.js:106-141): the grid
it stores in `this.grid` (the trailing `this.resize()` call only touches the
canvas and is modelled with the draw trace instead). -/
def buildGrid (year currentDayOfYear : Int) : Grid :=
  fillRows (offsetOf year) (totalDaysOf year) currentDayOfYear (rowsOf year) 0 1

/-- Closed form of the cell at flat index `idx`: empty before the `offset`
leading padding slots end and from `offset + totalDays` on; in between,
day numbers grow sequentially `1 .. totalDays` in row-major order. -/
def seqCell (offset totalDays : Nat) (cur : Int) (idx : Nat) : Option Cell :=
  if idx < offset ∨ offset + totalDays ≤ idx then none
  else some ⟨idx - offset + 1, cellStatus (idx - offset + 1) cur⟩

/-- Cell of a grid at row `r`, column `c` (empty when out of range). -/
def cellAtRC (g : Grid) (r c : Nat) : Option Cell :=
  ((g[r]?.getD [])[c]?).getD none

/-- Whether an optional cell is a day cell carrying status `s`. -/
def statusIs (s : Status) : Option Cell → Bool
  | some c => c.status == s
  | none => false

/-- Number of non-empty (day) cells of a grid. -/
def totalNonEmptyCells (g : Grid) : Nat :=
  g.flatten.countP (fun oc => oc.isSome)

/-- Number of non-empty cells of a grid carrying status `s`. -/
def countWithStatus (g : Grid) (s : Status) : Nat :=
  g.flatten.countP (statusIs s)

/-- Number of padding (empty) cells in the first row of a grid. -/
def paddingCountRow0 (g : Grid) : Nat :=
  (g.headD []).countP (fun oc => oc.isNone)

/-- Written from the spec's words, for comparison with the code's
`offsetOf`: the ISO Monday-indexed (Monday = 0 .. Sunday = 6) weekday of
January 1 of year `y` in the proleptic Gregorian calendar. -/
def mondayIndexJan1 (y : Int) : Nat :=
  (weekdaySun0OfJan1 y + 6) % 7

/-! ## Closed form of the fill loop -/

/-- Value the source's mutable `dayCount` holds when the fill loop reaches
flat index `i`: it starts at 1, increments on every non-padding index and
saturates at `totalDays + 1`. -/
def dcAt (offset totalDays i : Nat) : Nat :=
  min (i - offset + 1) (totalDays + 1)

theorem fillCells_range' (offset totalDays : Nat) (cur : Int) :
    ∀ n s, fillCells offset totalDays cur (List.range' s n) (dcAt offset totalDays s) =
      ((List.range' s n).map (seqCell offset totalDays cur),
        dcAt offset totalDays (s + n)) := by
  intro n
  induction n with
  | zero => intro s; simp [fillCells]
  | succ n ih =>
    intro s
    rw [show List.range' s (n + 1) = s :: List.range' (s + 1) n from rfl, List.map_cons]
    simp only [fillCells]
    by_cases h : s < offset ∨ totalDays < dcAt offset totalDays s
    · have hdc : dcAt offset totalDays (s + 1) = dcAt offset totalDays s := by
        unfold dcAt at h ⊢; omega
      have hseq : seqCell offset totalDays cur s = none := by
        unfold seqCell
        rw [if_pos]
        unfold dcAt at h; omega
      rw [if_pos h, ← hdc, ih (s + 1), hseq]
      have : s + 1 + n = s + (n + 1) := by omega
      rw [this]
    · have hd : dcAt offset totalDays s = s - offset + 1 := by
        unfold dcAt at h ⊢; omega
      have hdc : dcAt offset totalDays (s + 1) = dcAt offset totalDays s + 1 := by
        unfold dcAt at h ⊢; omega
      have hseq : seqCell offset totalDays cur s =
          some ⟨s - offset + 1, cellStatus (s - offset + 1) cur⟩ := by
        unfold seqCell
        rw [if_neg]
        unfold dcAt at h; omega
      rw [if_neg h, ← hdc, ih (s + 1), hseq, hd]
      have : s + 1 + n = s + (n + 1) := by omega
      rw [this]

theorem fillRows_eq (offset totalDays : Nat) (cur : Int) :
    ∀ n r, fillRows offset totalDays cur n r (dcAt offset totalDays (r * cols)) =
      (List.range' r n).map
        (fun q => (List.range' (q * cols) cols).map (seqCell offset totalDays cur)) := by
  intro n
  induction n with
  | zero => intro r; simp [fillRows]
  | succ n ih =>
    intro r
    rw [show List.range' r (n + 1) = r :: List.range' (r + 1) n from rfl, List.map_cons]
    simp only [fillRows]
    have hidx : (List.range cols).map (fun c => r * cols + c) =
        List.range' (r * cols) cols := by
      rw [List.range_eq_range']
      exact (List.range'_eq_map_range (r * cols) cols).symm
    rw [hidx, fillCells_range']
    have : r * cols + cols = (r + 1) * cols := by ring
    rw [this, ih (r + 1)]

theorem buildGrid_eq (year cur : Int) :
    buildGrid year cur =
      (List.range' 0 (rowsOf year)).map
        (fun q => (List.range' (q * cols) cols).map
          (seqCell (offsetOf year) (totalDaysOf year) cur)) := by
  unfold buildGrid
  have h := fillRows_eq (offsetOf year) (totalDaysOf year) cur (rowsOf year) 0
  have h1 : dcAt (offsetOf year) (totalDaysOf year) (0 * cols) = 1 := by
    unfold dcAt; omega
  rw [h1] at h
  exact h

theorem flatten_chunks (f : Nat → Option Cell) :
    ∀ n r, ((List.range' r n).map
        (fun q => (List.range' (q * cols) cols).map f)).flatten =
      (List.range' (r * cols) (n * cols)).map f := by
  intro n
  induction n with
  | zero => intro r; simp
  | succ n ih =>
    intro r
    rw [show List.range' r (n + 1) = r :: List.range' (r + 1) n from rfl, List.map_cons,
      List.flatten_cons, ih (r + 1)]
    have h2 : (r + 1) * cols = r * cols + 1 * cols := by ring
    have h3 : (n + 1) * cols = n * cols + cols := by ring
    rw [← List.map_append, h2, h3, List.range'_append]

theorem buildGrid_flatten (year cur : Int) :
    (buildGrid year cur).flatten =
      (List.range' 0 (rowsOf year * cols)).map
        (seqCell (offsetOf year) (totalDaysOf year) cur) := by
  rw [buildGrid_eq, flatten_chunks]
  norm_num

/-! ## Counting and indexing helpers -/

theorem countP_range'_band (a b : Nat) :
    ∀ n s, (List.range' s n).countP (fun i => decide (a ≤ i ∧ i < b)) =
      min (s + n) b - max s a := by
  intro n
  induction n with
  | zero =>
    intro s
    rw [show List.range' s 0 = [] from rfl, List.countP_nil]
    omega
  | succ n ih =>
    intro s
    rw [show List.range' s (n + 1) = s :: List.range' (s + 1) n from rfl,
      List.countP_cons, ih (s + 1)]
    by_cases h : a ≤ s ∧ s < b
    · have hd : decide (a ≤ s ∧ s < b) = true := by simpa using h
      rw [hd, if_pos rfl]
      omega
    · have hd : decide (a ≤ s ∧ s < b) = false := by simpa using h
      rw [hd, if_neg (by simp)]
      omega

theorem totalDaysOf_cases (year : Int) :
    totalDaysOf year = 365 ∨ totalDaysOf year = 366 := by
  unfold totalDaysOf
  split <;> simp

theorem offsetOf_lt (year : Int) : offsetOf year < 7 :=
  Nat.mod_lt _ (by omega)

theorem rows_mul_ge (year : Int) :
    offsetOf year + totalDaysOf year ≤ rowsOf year * cols := by
  have h := rowsOf.eq_def year
  unfold cols
  omega

theorem rows_mul_lt (year : Int) :
    rowsOf year * cols < offsetOf year + totalDaysOf year + cols := by
  have h := rowsOf.eq_def year
  unfold cols
  omega

theorem isSome_seqCell (offset totalDays : Nat) (cur : Int) (i : Nat) :
    (seqCell offset totalDays cur i).isSome =
      decide (offset ≤ i ∧ i < offset + totalDays) := by
  unfold seqCell
  by_cases h : i < offset ∨ offset + totalDays ≤ i
  · rw [if_pos h]
    have : ¬(offset ≤ i ∧ i < offset + totalDays) := by omega
    simp [this]
  · rw [if_neg h]
    have : offset ≤ i ∧ i < offset + totalDays := by omega
    simp [this]

theorem isNone_seqCell (offset totalDays : Nat) (cur : Int) (i : Nat) :
    (seqCell offset totalDays cur i).isNone =
      decide (i < offset ∨ offset + totalDays ≤ i) := by
  unfold seqCell
  by_cases h : i < offset ∨ offset + totalDays ≤ i
  · rw [if_pos h]
    simp [h]
  · rw [if_neg h]
    simp [h]

theorem statusIs_seqCell (offset totalDays : Nat) (d : Int) (i : Nat) (s : Status) :
    statusIs s (seqCell offset totalDays d i) =
      decide (offset ≤ i ∧ i < offset + totalDays ∧
        cellStatus (i - offset + 1) d = s) := by
  unfold seqCell
  by_cases h : i < offset ∨ offset + totalDays ≤ i
  · rw [if_pos h]
    have hn : ¬(offset ≤ i ∧ i < offset + totalDays ∧
        cellStatus (i - offset + 1) d = s) := by
      intro hc
      obtain ⟨h1, h2, -⟩ := hc
      omega
    rw [decide_eq_false hn]
    rfl
  · rw [if_neg h]
    have hin : offset ≤ i ∧ i < offset + totalDays := by omega
    show (cellStatus (i - offset + 1) d == s) = _
    by_cases hs : cellStatus (i - offset + 1) d = s
    · rw [decide_eq_true ⟨hin.1, hin.2, hs⟩, hs]
      simp
    · have hn : ¬(offset ≤ i ∧ i < offset + totalDays ∧
          cellStatus (i - offset + 1) d = s) := fun hc => hs hc.2.2
      rw [decide_eq_false hn]
      simpa using hs

theorem cellStatus_eq_today (dayCount : Nat) (d : Int) :
    cellStatus dayCount d = .today ↔ (dayCount : Int) = d := by
  unfold cellStatus
  split
  · constructor
    · intro h
      exact absurd h (by simp)
    · intro h
      omega
  · split
    · simp [*]
    · constructor
      · intro h
        exact absurd h (by simp)
      · intro h
        simp_all

theorem cellAtRC_buildGrid (year d : Int) (r c : Nat)
    (hr : r < rowsOf year) (hc : c < cols) :
    cellAtRC (buildGrid year d) r c =
      seqCell (offsetOf year) (totalDaysOf year) d (r * cols + c) := by
  unfold cellAtRC
  rw [buildGrid_eq]
  rw [List.getElem?_map, List.getElem?_range' _ _ hr]
  rw [show (0 : Nat) + 1 * r = r by omega]
  show (List.map (seqCell (offsetOf year) (totalDaysOf year) d)
    (List.range' (r * cols) cols))[c]?.getD none = _
  rw [List.getElem?_map, List.getElem?_range' _ _ hc]
  show seqCell (offsetOf year) (totalDaysOf year) d (r * cols + 1 * c) = _
  rw [show 1 * c = c by omega]

/-! ## Claims about the grid -/

/-- C1: for every year and every current day-of-year, the grid holds exactly
366 day cells when the year satisfies the Gregorian leap rule
`(y % 4 == 0 && y % 100 != 0) || (y % 400 == 0)` and 365 otherwise; 2000 and
2024 are leap, 1900 and 2023 are not.  Stated for every integer `d`, which
covers the claimed range `1 ≤ d ≤ totalDays`. -/
theorem C1_total_nonempty_cells :
    (∀ year d : Int, totalNonEmptyCells (buildGrid year d) =
      if (year.tmod 4 = 0 ∧ year.tmod 100 ≠ 0) ∨ year.tmod 400 = 0 then 366 else 365)
    ∧ isLeap 2000 = true ∧ isLeap 2024 = true
    ∧ isLeap 1900 = false ∧ isLeap 2023 = false := by
  refine ⟨?_, by decide, by decide, by decide, by decide⟩
  intro year d
  unfold totalNonEmptyCells
  rw [buildGrid_flatten, List.countP_map]
  have hcongr : ∀ i ∈ List.range' 0 (rowsOf year * cols),
      ((fun oc => oc.isSome) ∘ seqCell (offsetOf year) (totalDaysOf year) d) i = true ↔
      (fun i => decide (offsetOf year ≤ i ∧
        i < offsetOf year + totalDaysOf year)) i = true := by
    intro i _
    simp only [Function.comp_apply, isSome_seqCell]
  rw [List.countP_congr hcongr, countP_range'_band]
  have h1 := rows_mul_ge year
  have h2 : totalDaysOf year =
      if (year.tmod 4 = 0 ∧ year.tmod 100 ≠ 0) ∨ year.tmod 400 = 0
      then 366 else 365 := by
    unfold totalDaysOf isLeap
    by_cases hp : (year.tmod 4 = 0 ∧ year.tmod 100 ≠ 0) ∨ year.tmod 400 = 0
    · rw [if_pos hp, if_pos (by simpa using hp)]
    · rw [if_neg hp, if_neg (by simpa using hp)]
  rw [← h2]
  omega

/-- C2: for a valid current day-of-year `d`, exactly one day cell has status
`today`; a day cell's status is `past`, `today` or `future` according as its
day number is below, at or above `d`; and day numbers are assigned
sequentially in row-major order after the leading `offset` padding cells
(the cell at row `r`, column `c` is `seqCell` of flat index `r * cols + c`). -/
theorem C2_status_partition (year d : Int) (h1 : 1 ≤ d)
    (h2 : d ≤ (totalDaysOf year : Int)) :
    countWithStatus (buildGrid year d) .today = 1
    ∧ (∀ r c cell, r < rowsOf year → c < cols →
        cellAtRC (buildGrid year d) r c = some cell →
          ((cell.day : Int) < d → cell.status = .past)
          ∧ ((cell.day : Int) = d → cell.status = .today)
          ∧ (d < (cell.day : Int) → cell.status = .future))
    ∧ (∀ r c, r < rowsOf year → c < cols →
        cellAtRC (buildGrid year d) r c =
          seqCell (offsetOf year) (totalDaysOf year) d (r * cols + c)) := by
  refine ⟨?_, ?_, fun r c hr hc => cellAtRC_buildGrid year d r c hr hc⟩
  · unfold countWithStatus
    rw [buildGrid_flatten, List.countP_map]
    have hk : offsetOf year + (d.toNat - 1) < rowsOf year * cols := by
      have := rows_mul_ge year
      omega
    have hcongr : ∀ i ∈ List.range' 0 (rowsOf year * cols),
        (statusIs .today ∘ seqCell (offsetOf year) (totalDaysOf year) d) i = true ↔
        (fun i => decide (offsetOf year + (d.toNat - 1) ≤ i ∧
          i < offsetOf year + (d.toNat - 1) + 1)) i = true := by
      intro i _
      simp only [Function.comp_apply, statusIs_seqCell, cellStatus_eq_today,
        decide_eq_true_eq]
      omega
    rw [List.countP_congr hcongr, countP_range'_band]
    omega
  · intro r c cell hr hc hcell
    rw [cellAtRC_buildGrid year d r c hr hc] at hcell
    unfold seqCell at hcell
    by_cases hcase : r * cols + c < offsetOf year ∨
        offsetOf year + totalDaysOf year ≤ r * cols + c
    · rw [if_pos hcase] at hcell
      exact absurd hcell (by simp)
    · rw [if_neg hcase] at hcell
      injection hcell with hcell
      subst hcell
      refine ⟨fun hlt => ?_, fun heq => ?_, fun hgt => ?_⟩
      · have hx : ((r * cols + c - offsetOf year + 1 : Nat) : Int) < d := hlt
        show cellStatus (r * cols + c - offsetOf year + 1) d = Status.past
        unfold cellStatus
        split_ifs <;> first | rfl | (exfalso; omega)
      · have hx : ((r * cols + c - offsetOf year + 1 : Nat) : Int) = d := heq
        show cellStatus (r * cols + c - offsetOf year + 1) d = Status.today
        unfold cellStatus
        split_ifs <;> first | rfl | (exfalso; omega)
      · have hx : d < ((r * cols + c - offsetOf year + 1 : Nat) : Int) := hgt
        show cellStatus (r * cols + c - offsetOf year + 1) d = Status.future
        unfold cellStatus
        split_ifs <;> first | rfl | (exfalso; omega)

/-- C3 counterexample: in the 2024 grid the claim "padding (empty) cells
appear only in the first row" fails: the last row (row 52) ends in empty
cells because 366 day cells do not fill 53 rows of 7. -/
theorem C3_padding_counterexample :
    ¬ (∀ r c, r < rowsOf 2024 → c < cols →
        cellAtRC (buildGrid 2024 1) r c = none → r = 0) := by
  intro h
  exact absurd (h 52 6 (by decide) (by decide) (by decide)) (by decide)

/-- C3 as amended: empty cells appear only in the first row (the leading
offset padding) and in the last row (the unfilled tail); the first row holds
exactly `offsetOf year` empty cells; for years outside the Date
constructor's two-digit range 0..99 this offset is the ISO Monday-indexed
weekday of January 1; the spec's examples hold (2024 → 0, 2025 → 2). -/
theorem C3_padding_amended (year d : Int) :
    (∀ r c, r < rowsOf year → c < cols →
        cellAtRC (buildGrid year d) r c = none → r = 0 ∨ r = rowsOf year - 1)
    ∧ paddingCountRow0 (buildGrid year d) = offsetOf year
    ∧ (¬(0 ≤ year ∧ year ≤ 99) → offsetOf year = mondayIndexJan1 year)
    ∧ mondayIndexJan1 2024 = 0 ∧ mondayIndexJan1 2025 = 2 := by
  refine ⟨?_, ?_, ?_, by decide, by decide⟩
  · intro r c hr hc hnone
    rw [cellAtRC_buildGrid year d r c hr hc] at hnone
    unfold seqCell at hnone
    by_cases hcase : r * cols + c < offsetOf year ∨
        offsetOf year + totalDaysOf year ≤ r * cols + c
    · have h7 := offsetOf_lt year
      have htd := totalDaysOf_cases year
      have hge := rows_mul_ge year
      have hlt := rows_mul_lt year
      unfold cols at *
      omega
    · rw [if_neg hcase] at hnone
      exact absurd hnone (by simp)
  · have hge := rows_mul_ge year
    have htd := totalDaysOf_cases year
    have hrows1 : 1 ≤ rowsOf year := by
      unfold cols at hge
      omega
    unfold paddingCountRow0
    rw [buildGrid_eq]
    obtain ⟨m, hm⟩ : ∃ m, rowsOf year = m + 1 := ⟨rowsOf year - 1, by omega⟩
    rw [hm, show List.range' 0 (m + 1) = 0 :: List.range' 1 m from rfl,
      List.map_cons, List.headD_cons]
    show (List.map (seqCell (offsetOf year) (totalDaysOf year) d)
      (List.range' (0 * cols) cols)).countP (fun oc => oc.isNone) = _
    rw [show (0 : Nat) * cols = 0 by omega, List.countP_map]
    have h7 := offsetOf_lt year
    have hcongr : ∀ i ∈ List.range' 0 cols,
        ((fun oc => oc.isNone) ∘ seqCell (offsetOf year) (totalDaysOf year) d) i
          = true ↔
        (fun i => decide (0 ≤ i ∧ i < offsetOf year)) i = true := by
      intro i hi
      have hi7 : 0 ≤ i ∧ i < 0 + cols := by
        rw [← List.mem_range'_1]
        exact hi
      simp only [Function.comp_apply, isNone_seqCell, decide_eq_true_eq]
      unfold cols at *
      omega
    rw [List.countP_congr hcongr, countP_range'_band]
    unfold cols
    omega
  · intro hy
    unfold offsetOf jsDateJan1GetDay mondayIndexJan1
    rw [if_neg hy]

/-- C4: the grid computes `offset = (nativeWeekday + 6) % 7` from the native
Sunday-indexed weekday of January 1, every row has exactly 7 cells, and the
number of rows is the ceiling of `(offset + totalDays) / 7` (the last two
conjuncts pin the row count between the bounds characterising the ceiling). -/
theorem C4_week_alignment_shape (year d : Int) :
    offsetOf year = (jsDateJan1GetDay year + 6) % 7
    ∧ (∀ row ∈ buildGrid year d, row.length = cols)
    ∧ (buildGrid year d).length = rowsOf year
    ∧ offsetOf year + totalDaysOf year ≤ rowsOf year * cols
    ∧ rowsOf year * cols < offsetOf year + totalDaysOf year + cols := by
  refine ⟨rfl, ?_, ?_, rows_mul_ge year, rows_mul_lt year⟩
  · intro row hrow
    rw [buildGrid_eq] at hrow
    obtain ⟨q, hq, hrow⟩ := List.mem_map.mp hrow
    rw [← hrow, List.length_map, List.length_range']
  · rw [buildGrid_eq, List.length_map, List.length_range']

/-- C10: for `currentDayOfYear` outside `[1, totalDays]` the grid keeps the
same shape and day numbering, no cell is `today`, and every day cell is
`past` when `d > totalDays` and `future` when `d < 1`. -/
theorem C10_out_of_range_day (year d : Int)
    (h : d < 1 ∨ (totalDaysOf year : Int) < d) :
    countWithStatus (buildGrid year d) .today = 0
    ∧ (buildGrid year d).length = (buildGrid year 1).length
    ∧ (∀ r c, r < rowsOf year → c < cols →
        (cellAtRC (buildGrid year d) r c).map Cell.day =
          (cellAtRC (buildGrid year 1) r c).map Cell.day)
    ∧ ((totalDaysOf year : Int) < d → ∀ r c cell, r < rowsOf year → c < cols →
        cellAtRC (buildGrid year d) r c = some cell → cell.status = .past)
    ∧ (d < 1 → ∀ r c cell, r < rowsOf year → c < cols →
        cellAtRC (buildGrid year d) r c = some cell → cell.status = .future) := by
  refine ⟨?_, ?_, ?_, ?_, ?_⟩
  · unfold countWithStatus
    rw [buildGrid_flatten, List.countP_map]
    apply List.countP_eq_zero.mpr
    intro i _
    simp only [Function.comp_apply, statusIs_seqCell, cellStatus_eq_today,
      decide_eq_true_eq]
    omega
  · rw [buildGrid_eq, buildGrid_eq, List.length_map, List.length_map]
  · intro r c hr hc
    rw [cellAtRC_buildGrid year d r c hr hc, cellAtRC_buildGrid year 1 r c hr hc]
    unfold seqCell
    by_cases hcase : r * cols + c < offsetOf year ∨
        offsetOf year + totalDaysOf year ≤ r * cols + c
    · rw [if_pos hcase, if_pos hcase]
    · rw [if_neg hcase, if_neg hcase]
      rfl
  · intro hgt r c cell hr hc hcell
    rw [cellAtRC_buildGrid year d r c hr hc] at hcell
    unfold seqCell at hcell
    by_cases hcase : r * cols + c < offsetOf year ∨
        offsetOf year + totalDaysOf year ≤ r * cols + c
    · rw [if_pos hcase] at hcell
      exact absurd hcell (by simp)
    · rw [if_neg hcase] at hcell
      injection hcell with hcell
      subst hcell
      show cellStatus (r * cols + c - offsetOf year + 1) d = _
      unfold cellStatus
      split_ifs <;> first | rfl | (exfalso; omega)
  · intro hlt r c cell hr hc hcell
    rw [cellAtRC_buildGrid year d r c hr hc] at hcell
    unfold seqCell at hcell
    by_cases hcase : r * cols + c < offsetOf year ∨
        offsetOf year + totalDaysOf year ≤ r * cols + c
    · rw [if_pos hcase] at hcell
      exact absurd hcell (by simp)
    · rw [if_neg hcase] at hcell
      injection hcell with hcell
      subst hcell
      show cellStatus (r * cols + c - offsetOf year + 1) d = _
      unfold cellStatus
      split_ifs <;> first | rfl | (exfalso; omega)

/-! ## Settings model (Settings, script.js:13-65)

The settings object is a JavaScript object with the five keys of
`this.defaults` (script.js:15-21); its values are JSON-representable
primitives (strings, finite numbers, booleans), modelled by `JValue`.
`localStorage` holds at most one string under the key `memento_settings`;
the stored string is modelled structurally by `Stored`: the empty string
(falsy in the `saved ? ... : ...` test of script.js:28), a string on which
`JSON.parse` throws, or a string parsing to an object carrying an optional
value per settings key.  `JSON.stringify` of a full settings state is an
object text carrying every key (`save`, script.js:32), and
`JSON.parse(JSON.stringify(v))` is the identity on these primitive values,
so serialisation is modelled as storing the values themselves.  A load that
throws (uncaught `JSON.parse` exception) is `Except.error ()`. -/

/-- A JSON-representable primitive settings value. -/
inductive JValue where
  | str (s : String)
  | num (q : ℚ)
  | bool (b : Bool)
deriving DecidableEq

/-- The five settings keys of `this.defaults` (script.js:15-21). -/
inductive SKey where
  | theme
  | accentColor
  | dotSize
  | glowEnabled
  | showClock
deriving DecidableEq

/-- A settings state object: a value for each of the five keys. -/
abbrev SettingsState := SKey → JValue

/-- `this.defaults` (script.js:15-21); `dotSize: 3.5` is exact. -/
def defaults : SettingsState
  | .theme => .str "dark"
  | .accentColor => .str "#f28c38"
  | .dotSize => .num (7 / 2)
  | .glowEnabled => .bool true
  | .showClock => .bool true

/-- The string `localStorage` may hold under `memento_settings`, modelled by
what `JSON.parse` does with it. -/
inductive Stored where
  | emptyStr
  | corrupt
  | obj (fields : SKey → Option JValue)

/-- The storage slot: `localStorage.getItem` yields `null` or a string. -/
abbrev Storage := Option Stored

/-- `Settings.load()` (script.js:26-29):
`saved ? { ...this.defaults, ...JSON.parse(saved) } : { ...this.defaults }`.
A missing item (`null`) and the empty string are falsy, yielding a copy of
the defaults; `JSON.parse` on an unparseable string throws, and no handler
catches it; a parsed object is spread over the defaults, so a key present in
it wins and a missing key falls back to the default. -/
def load (storage : Storage) : Except Unit SettingsState :=
  match storage with
  | none => .ok (fun k => defaults k)
  | some .emptyStr => .ok (fun k => defaults k)
  | some .corrupt => .error ()
  | some (.obj f) => .ok (fun k => (f k).getD (defaults k))

/-- `Settings.save()` (script.js:31-34): stores
`JSON.stringify(this.state)`, an object text carrying every settings key
(the trailing `this.apply()` only touches the document). -/
def save (state : SettingsState) : Storage :=
  some (.obj (fun k => some (state k)))

/-- `Settings.update(key, value)` (script.js:41-44): sets one field of the
state, then saves.  Returns the new state and the new storage contents. -/
def update (state : SettingsState) (key : SKey) (value : JValue) :
    SettingsState × Storage :=
  let newState : SettingsState := fun k => if k = key then value else state k
  (newState, save newState)

theorem load_save (state : SettingsState) : load (save state) = .ok state := by
  unfold load save
  exact congrArg Except.ok (funext fun k => rfl)

/-- C5: saving any settings state and then performing a fresh load against
the resulting storage yields exactly the saved state object. -/
theorem C5_save_load_roundtrip :
    ∀ state : SettingsState, load (save state) = .ok state :=
  load_save

/-- C6 counterexample: on corrupt (unparseable) storage, `load` does not
return the pure defaults — the uncaught `JSON.parse` exception propagates. -/
theorem C6_corrupt_counterexample :
    load (some Stored.corrupt) = .error ()
    ∧ load (some Stored.corrupt) ≠ .ok defaults := by
  exact ⟨rfl, by simp [load]⟩

/-- C6 as amended: `load` merges the persisted object over the defaults
(a present key wins, a missing key falls back to its default); missing
storage and the falsy empty string yield the pure defaults; corrupt
(unparseable) storage makes `load` throw instead of recovering. -/
theorem C6_load_amended :
    load none = .ok defaults
    ∧ load (some .emptyStr) = .ok defaults
    ∧ load (some .corrupt) = .error ()
    ∧ (∀ fields, load (some (.obj fields)) =
        .ok (fun k => (fields k).getD (defaults k))) := by
  exact ⟨rfl, rfl, rfl, fun fields => rfl⟩

/-- C9: `update(key, value)` sets field `key` of the state to `value`,
leaves every other field unchanged, and persists the resulting state (a
fresh load of the written storage returns exactly the new state). -/
theorem C9_update_one_field :
    ∀ (state : SettingsState) (key : SKey) (value : JValue),
      (update state key value).1 key = value
      ∧ (∀ k, k ≠ key → (update state key value).1 k = state k)
      ∧ (update state key value).2 = save (update state key value).1
      ∧ load (update state key value).2 = .ok (update state key value).1 := by
  intro state key value
  refine ⟨?_, ?_, rfl, load_save _⟩
  · show (if key = key then value else state key) = value
    rw [if_pos rfl]
  · intro k hk
    show (if k = key then value else state k) = state k
    rw [if_neg hk]

/-! ## Draw model (Renderer.draw, script.js:143-213)

One frame of `draw` is modelled as the list of painting operations it
performs on the canvas, in order: the initial `clearRect` over the full
CSS-pixel surface (`canvas.width / dpr = cols * dotGapX`,
`canvas.height / dpr = rows * dotGapY` after `resize`), then, per non-empty
cell in row-major order, the filled arcs.  A filled arc is recorded with its
centre, radius, fill colour, the `globalAlpha` and `shadowBlur` in force.
`Math.sin` is an explicit parameter `sinFn` (the only fact any proof uses
about it is a concrete value such as `Math.sin 0 = 0`); all other arithmetic
of `draw` is exact on `ℚ`.  `radius = parseFloat(dotSize)` is the identity
on a numeric `dotSize`. -/

/-- One canvas painting operation of a frame. -/
inductive CanvasOp where
  | clear (w h : ℚ)
  | fillCircle (cx cy radius : ℚ) (color : String) (alpha : ℚ) (shadowBlur : ℚ)
deriving DecidableEq

/-- The settings fields and computed-style colours `draw` reads
(script.js:144 and 152-154). -/
structure DrawEnv where
  dotSize : ℚ
  glowEnabled : Bool
  accentColor : String
  pastColor : String
  futureColor : String
deriving DecidableEq

/-- Operations drawn for one non-empty cell at row `r`, column `c`
(script.js:164-208): centre `(gapX/2 + c*gapX, gapY/2 + r*gapY)`; a `past`
or `future` cell is one filled circle of radius `dotSize`; a `today` cell
is, when glow is enabled, a circle of radius `dotSize * 3` in the accent
colour at `globalAlpha = 0.3 * (0.5 + 0.5 * sin(elapsed * 0.002))`
(script.js:183-194; the radial gradient `grad` is created but never used),
then the accent circle of radius `dotSize + 1` (script.js:199), filled a
second time under `shadowBlur = 10` (script.js:204-206). -/
def cellOps (env : DrawEnv) (sinFn : ℚ → ℚ) (elapsed : ℚ) (r c : Nat)
    (cell : Cell) : List CanvasOp :=
  let radius := env.dotSize
  let cx := dotGapX / 2 + (c : ℚ) * dotGapX
  let cy := dotGapY / 2 + (r : ℚ) * dotGapY
  match cell.status with
  | .past => [.fillCircle cx cy radius env.pastColor 1 0]
  | .future => [.fillCircle cx cy radius env.futureColor 1 0]
  | .today =>
    (if env.glowEnabled then
      [.fillCircle cx cy (radius * 3) env.accentColor
        ((0.3 : ℚ) * ((0.5 : ℚ) + (0.5 : ℚ) * sinFn (elapsed * (0.002 : ℚ)))) 0]
    else [])
    ++ [.fillCircle cx cy (radius + 1) env.accentColor 1 0,
        .fillCircle cx cy (radius + 1) env.accentColor 1 10]

/-- Inner `row.forEach((cell, c) => ...)` of script.js:165-209, with `c0`
the column index of the first listed cell. -/
def drawCells (env : DrawEnv) (sinFn : ℚ → ℚ) (elapsed : ℚ) (r : Nat) :
    List (Option Cell) → Nat → List CanvasOp
  | [], _ => []
  | none :: rest, c => drawCells env sinFn elapsed r rest (c + 1)
  | some cell :: rest, c =>
    cellOps env sinFn elapsed r c cell ++ drawCells env sinFn elapsed r rest (c + 1)

/-- Outer `this.grid.forEach((row, r) => ...)` of script.js:164-210, with
`r0` the row index of the first listed row. -/
def drawRows (env : DrawEnv) (sinFn : ℚ → ℚ) (elapsed : ℚ) :
    Grid → Nat → List CanvasOp
  | [], _ => []
  | row :: rest, r =>
    drawCells env sinFn elapsed r row 0 ++ drawRows env sinFn elapsed rest (r + 1)

/-- One frame of `Renderer.draw` (script.js:143-213) at elapsed time
`elapsed` milliseconds: the clear of the full surface, then the cells'
operations in row-major order. -/
def draw (env : DrawEnv) (sinFn : ℚ → ℚ) (g : Grid) (elapsed : ℚ) :
    List CanvasOp :=
  .clear ((cols : ℚ) * dotGapX) ((g.length : ℚ) * dotGapY) ::
    drawRows env sinFn elapsed g 0

theorem mem_drawCells (env : DrawEnv) (sinFn : ℚ → ℚ) (elapsed : ℚ) (r : Nat) :
    ∀ (l : List (Option Cell)) (j c0 : Nat) (cell : Cell) (op : CanvasOp),
      l[j]? = some (some cell) → op ∈ cellOps env sinFn elapsed r (c0 + j) cell →
      op ∈ drawCells env sinFn elapsed r l c0 := by
  intro l
  induction l with
  | nil =>
    intro j c0 cell op hj _
    simp at hj
  | cons oc rest ih =>
    intro j c0 cell op hj hop
    cases j with
    | zero =>
      rw [List.getElem?_cons_zero] at hj
      injection hj with hj
      subst hj
      show op ∈ drawCells env sinFn elapsed r (some cell :: rest) c0
      unfold drawCells
      exact List.mem_append_left _ (by simpa using hop)
    | succ j =>
      rw [List.getElem?_cons_succ] at hj
      have hop' : op ∈ cellOps env sinFn elapsed r ((c0 + 1) + j) cell := by
        rw [show (c0 + 1) + j = c0 + (j + 1) by omega]
        exact hop
      cases oc with
      | none =>
        show op ∈ drawCells env sinFn elapsed r (none :: rest) c0
        unfold drawCells
        exact ih j (c0 + 1) cell op hj hop'
      | some cell' =>
        show op ∈ drawCells env sinFn elapsed r (some cell' :: rest) c0
        unfold drawCells
        exact List.mem_append_right _ (ih j (c0 + 1) cell op hj hop')

theorem mem_drawRows (env : DrawEnv) (sinFn : ℚ → ℚ) (elapsed : ℚ) :
    ∀ (g : Grid) (i r0 : Nat) (row : List (Option Cell)) (op : CanvasOp),
      g[i]? = some row → op ∈ drawCells env sinFn elapsed (r0 + i) row 0 →
      op ∈ drawRows env sinFn elapsed g r0 := by
  intro g
  induction g with
  | nil =>
    intro i r0 row op hi _
    simp at hi
  | cons row' rest ih =>
    intro i r0 row op hi hop
    cases i with
    | zero =>
      rw [List.getElem?_cons_zero] at hi
      injection hi with hi
      rw [hi]
      show op ∈ drawRows env sinFn elapsed (row :: rest) r0
      unfold drawRows
      exact List.mem_append_left _ (by simpa using hop)
    | succ i =>
      rw [List.getElem?_cons_succ] at hi
      show op ∈ drawRows env sinFn elapsed (row' :: rest) r0
      unfold drawRows
      refine List.mem_append_right _ (ih i (r0 + 1) row op hi ?_)
      rw [show (r0 + 1) + i = r0 + (i + 1) by omega]
      exact hop

theorem mem_draw_of_cellAtRC (env : DrawEnv) (sinFn : ℚ → ℚ) (elapsed : ℚ)
    (g : Grid) (r c : Nat) (cell : Cell) (op : CanvasOp)
    (hcell : cellAtRC g r c = some cell)
    (hop : op ∈ cellOps env sinFn elapsed r c cell) :
    op ∈ draw env sinFn g elapsed := by
  unfold cellAtRC at hcell
  obtain ⟨row, hrow⟩ : ∃ row, g[r]? = some row := by
    cases hg : g[r]? with
    | none =>
      rw [hg] at hcell
      simp at hcell
    | some row => exact ⟨row, rfl⟩
  rw [hrow] at hcell
  have hc : row[c]? = some (some cell) := by
    cases hc' : row[c]? with
    | none =>
      rw [show (Option.some row).getD [] = row from rfl, hc'] at hcell
      simp at hcell
    | some oc =>
      rw [show (Option.some row).getD [] = row from rfl, hc'] at hcell
      rw [show (Option.some oc).getD none = oc from rfl] at hcell
      rw [hcell]
  unfold draw
  refine List.mem_cons_of_mem _ ?_
  refine mem_drawRows env sinFn elapsed g r 0 row op (by simpa using hrow) ?_
  exact mem_drawCells env sinFn elapsed (0 + r) row c 0 cell op hc
    (by simpa using hop)

theorem mem_drawCells_inv (env : DrawEnv) (sinFn : ℚ → ℚ) (elapsed : ℚ)
    (r : Nat) :
    ∀ (l : List (Option Cell)) (c0 : Nat) (op : CanvasOp),
      op ∈ drawCells env sinFn elapsed r l c0 →
      ∃ j cell, l[j]? = some (some cell) ∧
        op ∈ cellOps env sinFn elapsed r (c0 + j) cell := by
  intro l
  induction l with
  | nil =>
    intro c0 op hop
    simp [drawCells] at hop
  | cons oc rest ih =>
    intro c0 op hop
    cases oc with
    | none =>
      obtain ⟨j, cell, hj, hcell⟩ := ih (c0 + 1) op (by simpa [drawCells] using hop)
      refine ⟨j + 1, cell, by simpa using hj, ?_⟩
      rw [show c0 + (j + 1) = (c0 + 1) + j by omega]
      exact hcell
    | some cell' =>
      rw [show drawCells env sinFn elapsed r (some cell' :: rest) c0 =
        cellOps env sinFn elapsed r c0 cell' ++
          drawCells env sinFn elapsed r rest (c0 + 1) from rfl] at hop
      rcases List.mem_append.mp hop with h | h
      · exact ⟨0, cell', by simp, by simpa using h⟩
      · obtain ⟨j, cell, hj, hcell⟩ := ih (c0 + 1) op h
        refine ⟨j + 1, cell, by simpa using hj, ?_⟩
        rw [show c0 + (j + 1) = (c0 + 1) + j by omega]
        exact hcell

theorem mem_drawRows_inv (env : DrawEnv) (sinFn : ℚ → ℚ) (elapsed : ℚ) :
    ∀ (g : Grid) (r0 : Nat) (op : CanvasOp),
      op ∈ drawRows env sinFn elapsed g r0 →
      ∃ i row, g[i]? = some row ∧
        op ∈ drawCells env sinFn elapsed (r0 + i) row 0 := by
  intro g
  induction g with
  | nil =>
    intro r0 op hop
    simp [drawRows] at hop
  | cons row rest ih =>
    intro r0 op hop
    rw [show drawRows env sinFn elapsed (row :: rest) r0 =
      drawCells env sinFn elapsed r0 row 0 ++
        drawRows env sinFn elapsed rest (r0 + 1) from rfl] at hop
    rcases List.mem_append.mp hop with h | h
    · exact ⟨0, row, by simp, by simpa using h⟩
    · obtain ⟨i, row', hi, hrow⟩ := ih (r0 + 1) op h
      refine ⟨i + 1, row', by simpa using hi, ?_⟩
      rw [show r0 + (i + 1) = (r0 + 1) + i by omega]
      exact hrow

theorem mem_draw_inv (env : DrawEnv) (sinFn : ℚ → ℚ) (g : Grid) (elapsed : ℚ)
    (op : CanvasOp) (hop : op ∈ draw env sinFn g elapsed) :
    op = .clear ((cols : ℚ) * dotGapX) ((g.length : ℚ) * dotGapY)
    ∨ ∃ r c cell, cellAtRC g r c = some cell ∧
        op ∈ cellOps env sinFn elapsed r c cell := by
  unfold draw at hop
  rcases List.mem_cons.mp hop with h | h
  · exact Or.inl h
  · right
    obtain ⟨i, row, hi, hrow⟩ := mem_drawRows_inv env sinFn elapsed g 0 op h
    obtain ⟨j, cell, hj, hcell⟩ :=
      mem_drawCells_inv env sinFn elapsed (0 + i) row 0 op hrow
    refine ⟨i, j, cell, ?_, ?_⟩
    · unfold cellAtRC
      rw [hi]
      show (row[j]?).getD none = some cell
      rw [hj]
      rfl
    · have h1 : (0 : Nat) + i = i := by omega
      have h2 : (0 : Nat) + j = j := by omega
      rw [h1, h2] at hcell
      exact hcell

/-! ## Claims about the draw loop -/

/-- Concrete environment for counterexample frames: the default dot size
3.5 and accent `#f28c38`, glow enabled, arbitrary theme colours. -/
def envEx : DrawEnv :=
  ⟨7 / 2, true, "#f28c38", "#3a3a3a", "#202020"⟩

/-- C7 counterexample: in the frame drawn for the 2024 grid on January 1
(dot size 3.5, glow on, elapsed 0, `Math.sin 0 = 0`), the `today` cell at
row 0, column 0 gets no filled circle of radius equal to the configured dot
size at its centre: its main disc has radius `dotSize + 1` (script.js:199)
and its glow disc radius `dotSize * 3`, so "radius equals the configured
dot size, including 'today'" fails. -/
theorem C7_draw_counterexample :
    ¬ (∀ r c cell, cellAtRC (buildGrid 2024 1) r c = some cell →
        ∃ color alpha sb,
          CanvasOp.fillCircle (dotGapX / 2 + (c : ℚ) * dotGapX)
            (dotGapY / 2 + (r : ℚ) * dotGapY) ((7 : ℚ) / 2) color alpha sb
            ∈ draw envEx (fun _ => 0) (buildGrid 2024 1) 0) := by
  intro h
  obtain ⟨color, alpha, sb, hmem⟩ := h 0 0 ⟨1, .today⟩ (by decide)
  rcases mem_draw_inv _ _ _ _ _ hmem with hcl | ⟨r, c, cell, hcell, hop⟩
  · exact absurd hcl (by simp)
  · obtain ⟨day, st⟩ := cell
    cases st
    · rw [show cellOps envEx (fun _ => (0 : ℚ)) 0 r c ⟨day, Status.past⟩ =
        [CanvasOp.fillCircle (dotGapX / 2 + (c : ℚ) * dotGapX)
          (dotGapY / 2 + (r : ℚ) * dotGapY) ((7 : ℚ) / 2) "#3a3a3a" 1 0]
        from rfl, List.mem_singleton] at hop
      injection hop with hcx hcy hrad hcol hal hsb
      have hc : (c : ℚ) = 0 := by
        rw [show dotGapX = 28 from rfl] at hcx
        push_cast at hcx
        linarith
      have hr : (r : ℚ) = 0 := by
        rw [show dotGapY = 14 from rfl] at hcy
        push_cast at hcy
        linarith
      have hcn : c = 0 := by exact_mod_cast hc
      have hrn : r = 0 := by exact_mod_cast hr
      subst hcn hrn
      have hx : cellAtRC (buildGrid 2024 1) 0 0 = some ⟨1, Status.today⟩ := by
        decide
      rw [hx] at hcell
      injection hcell with hcell
      injection hcell with hday hstatus
      exact absurd hstatus (by decide)
    · rw [show cellOps envEx (fun _ => (0 : ℚ)) 0 r c ⟨day, Status.today⟩ =
        [CanvasOp.fillCircle (dotGapX / 2 + (c : ℚ) * dotGapX)
          (dotGapY / 2 + (r : ℚ) * dotGapY) ((7 : ℚ) / 2 * 3) "#f28c38"
          ((0.3 : ℚ) * ((0.5 : ℚ) + (0.5 : ℚ) * 0)) 0,
         CanvasOp.fillCircle (dotGapX / 2 + (c : ℚ) * dotGapX)
          (dotGapY / 2 + (r : ℚ) * dotGapY) ((7 : ℚ) / 2 + 1) "#f28c38" 1 0,
         CanvasOp.fillCircle (dotGapX / 2 + (c : ℚ) * dotGapX)
          (dotGapY / 2 + (r : ℚ) * dotGapY) ((7 : ℚ) / 2 + 1) "#f28c38" 1 10]
        from rfl] at hop
      rcases List.mem_cons.mp hop with hop | hop
      · injection hop with hcx hcy hrad hcol hal hsb
        have hx : (7 : ℚ) / 2 = 7 / 2 * 3 := hrad
        norm_num at hx
      rcases List.mem_cons.mp hop with hop | hop
      · injection hop with hcx hcy hrad hcol hal hsb
        have hx : (7 : ℚ) / 2 = 7 / 2 + 1 := hrad
        norm_num at hx
      rw [List.mem_singleton] at hop
      injection hop with hcx hcy hrad hcol hal hsb
      have hx : (7 : ℚ) / 2 = 7 / 2 + 1 := hrad
      norm_num at hx
    · rw [show cellOps envEx (fun _ => (0 : ℚ)) 0 r c ⟨day, Status.future⟩ =
        [CanvasOp.fillCircle (dotGapX / 2 + (c : ℚ) * dotGapX)
          (dotGapY / 2 + (r : ℚ) * dotGapY) ((7 : ℚ) / 2) "#202020" 1 0]
        from rfl, List.mem_singleton] at hop
      injection hop with hcx hcy hrad hcol hal hsb
      have hc : (c : ℚ) = 0 := by
        rw [show dotGapX = 28 from rfl] at hcx
        push_cast at hcx
        linarith
      have hr : (r : ℚ) = 0 := by
        rw [show dotGapY = 14 from rfl] at hcy
        push_cast at hcy
        linarith
      have hcn : c = 0 := by exact_mod_cast hc
      have hrn : r = 0 := by exact_mod_cast hr
      subst hcn hrn
      have hx : cellAtRC (buildGrid 2024 1) 0 0 = some ⟨1, Status.today⟩ := by
        decide
      rw [hx] at hcell
      injection hcell with hcell
      injection hcell with hday hstatus
      exact absurd hstatus (by decide)

/-- C7 as amended: each frame first clears the full surface; every `past`
or `future` cell gets a filled circle of radius equal to the configured dot
size at `(gapX/2 + c*gapX, gapY/2 + r*gapY)` in the theme colour; the
`today` cell gets its accent-coloured filled circle at the same centre but
with radius `dotSize + 1`. -/
theorem C7_draw_amended (env : DrawEnv) (sinFn : ℚ → ℚ) (g : Grid)
    (elapsed : ℚ) :
    (draw env sinFn g elapsed).head? =
      some (.clear ((cols : ℚ) * dotGapX) ((g.length : ℚ) * dotGapY))
    ∧ (∀ r c cell, cellAtRC g r c = some cell →
        (cell.status = .past →
          CanvasOp.fillCircle (dotGapX / 2 + (c : ℚ) * dotGapX)
            (dotGapY / 2 + (r : ℚ) * dotGapY) env.dotSize env.pastColor 1 0
            ∈ draw env sinFn g elapsed)
        ∧ (cell.status = .future →
          CanvasOp.fillCircle (dotGapX / 2 + (c : ℚ) * dotGapX)
            (dotGapY / 2 + (r : ℚ) * dotGapY) env.dotSize env.futureColor 1 0
            ∈ draw env sinFn g elapsed)
        ∧ (cell.status = .today →
          CanvasOp.fillCircle (dotGapX / 2 + (c : ℚ) * dotGapX)
            (dotGapY / 2 + (r : ℚ) * dotGapY) (env.dotSize + 1)
            env.accentColor 1 0
            ∈ draw env sinFn g elapsed)) := by
  refine ⟨rfl, ?_⟩
  intro r c cell hcell
  refine ⟨fun hs => ?_, fun hs => ?_, fun hs => ?_⟩
  · apply mem_draw_of_cellAtRC env sinFn elapsed g r c cell _ hcell
    unfold cellOps
    rw [hs]
    simp
  · apply mem_draw_of_cellAtRC env sinFn elapsed g r c cell _ hcell
    unfold cellOps
    rw [hs]
    simp
  · apply mem_draw_of_cellAtRC env sinFn elapsed g r c cell _ hcell
    unfold cellOps
    rw [hs]
    refine List.mem_append_right _ ?_
    simp

/-- C8 counterexample: at elapsed time 0 (`Math.sin 0 = 0`) the claimed
glow opacity would be `0.5 + 0.5 * sin 0 = 0.5`, but no operation of the
frame drawn behind the `today` cell (dot size 3.5, glow on) carries global
alpha 0.5: the glow disc is drawn at `0.3 * (0.5 + 0.5 * sin 0) = 0.15`
(script.js:190). -/
theorem C8_glow_counterexample :
    ¬ (∀ r c cell, cellAtRC (buildGrid 2024 1) r c = some cell →
        cell.status = .today →
        ∃ radius color sb,
          CanvasOp.fillCircle (dotGapX / 2 + (c : ℚ) * dotGapX)
            (dotGapY / 2 + (r : ℚ) * dotGapY) radius color
            ((0.5 : ℚ) + (0.5 : ℚ) * ((0 : ℚ))) sb
            ∈ draw envEx (fun _ => 0) (buildGrid 2024 1) 0) := by
  intro h
  obtain ⟨radius, color, sb, hmem⟩ := h 0 0 ⟨1, .today⟩ (by decide) rfl
  rcases mem_draw_inv _ _ _ _ _ hmem with hcl | ⟨r, c, cell, hcell, hop⟩
  · exact absurd hcl (by simp)
  · obtain ⟨day, st⟩ := cell
    cases st
    · rw [show cellOps envEx (fun _ => (0 : ℚ)) 0 r c ⟨day, Status.past⟩ =
        [CanvasOp.fillCircle (dotGapX / 2 + (c : ℚ) * dotGapX)
          (dotGapY / 2 + (r : ℚ) * dotGapY) ((7 : ℚ) / 2) "#3a3a3a" 1 0]
        from rfl, List.mem_singleton] at hop
      injection hop with hcx hcy hrad hcol hal hsb
      have hx : (0.5 : ℚ) + 0.5 * 0 = 1 := hal
      norm_num at hx
    · rw [show cellOps envEx (fun _ => (0 : ℚ)) 0 r c ⟨day, Status.today⟩ =
        [CanvasOp.fillCircle (dotGapX / 2 + (c : ℚ) * dotGapX)
          (dotGapY / 2 + (r : ℚ) * dotGapY) ((7 : ℚ) / 2 * 3) "#f28c38"
          ((0.3 : ℚ) * ((0.5 : ℚ) + (0.5 : ℚ) * 0)) 0,
         CanvasOp.fillCircle (dotGapX / 2 + (c : ℚ) * dotGapX)
          (dotGapY / 2 + (r : ℚ) * dotGapY) ((7 : ℚ) / 2 + 1) "#f28c38" 1 0,
         CanvasOp.fillCircle (dotGapX / 2 + (c : ℚ) * dotGapX)
          (dotGapY / 2 + (r : ℚ) * dotGapY) ((7 : ℚ) / 2 + 1) "#f28c38" 1 10]
        from rfl] at hop
      rcases List.mem_cons.mp hop with hop | hop
      · injection hop with hcx hcy hrad hcol hal hsb
        have hx : (0.5 : ℚ) + 0.5 * 0 = 0.3 * (0.5 + 0.5 * 0) := hal
        norm_num at hx
      rcases List.mem_cons.mp hop with hop | hop
      · injection hop with hcx hcy hrad hcol hal hsb
        have hx : (0.5 : ℚ) + 0.5 * 0 = 1 := hal
        norm_num at hx
      rw [List.mem_singleton] at hop
      injection hop with hcx hcy hrad hcol hal hsb
      have hx : (0.5 : ℚ) + 0.5 * 0 = 1 := hal
      norm_num at hx
    · rw [show cellOps envEx (fun _ => (0 : ℚ)) 0 r c ⟨day, Status.future⟩ =
        [CanvasOp.fillCircle (dotGapX / 2 + (c : ℚ) * dotGapX)
          (dotGapY / 2 + (r : ℚ) * dotGapY) ((7 : ℚ) / 2) "#202020" 1 0]
        from rfl, List.mem_singleton] at hop
      injection hop with hcx hcy hrad hcol hal hsb
      have hx : (0.5 : ℚ) + 0.5 * 0 = 1 := hal
      norm_num at hx

/-- C8 as amended: when glow is enabled, the glow drawn behind the `today`
cell at elapsed time `elapsed` is a filled accent-coloured disc reaching out
to 3 times the dot radius whose opacity is
`0.3 * (0.5 + 0.5 * sin(elapsed * 0.002))`. -/
theorem C8_glow_amended (env : DrawEnv) (sinFn : ℚ → ℚ) (g : Grid)
    (elapsed : ℚ) (r c : Nat) (cell : Cell)
    (hglow : env.glowEnabled = true)
    (hcell : cellAtRC g r c = some cell)
    (htoday : cell.status = .today) :
    CanvasOp.fillCircle (dotGapX / 2 + (c : ℚ) * dotGapX)
      (dotGapY / 2 + (r : ℚ) * dotGapY) (env.dotSize * 3) env.accentColor
      ((0.3 : ℚ) * ((0.5 : ℚ) + (0.5 : ℚ) * sinFn (elapsed * (0.002 : ℚ)))) 0
      ∈ draw env sinFn g elapsed := by
  apply mem_draw_of_cellAtRC env sinFn elapsed g r c cell _ hcell
  unfold cellOps
  rw [htoday, hglow]
  simp

/-- Witness for C8: the glow disc of the 2024 January-1 frame at elapsed 0. -/
theorem C8_glow_amended_witness :
    CanvasOp.fillCircle (dotGapX / 2 + ((0 : Nat) : ℚ) * dotGapX)
      (dotGapY / 2 + ((0 : Nat) : ℚ) * dotGapY) ((7 : ℚ) / 2 * 3) "#f28c38"
      ((0.3 : ℚ) * ((0.5 : ℚ) + (0.5 : ℚ) * ((0 : ℚ)))) 0
      ∈ draw envEx (fun _ => (0 : ℚ)) (buildGrid 2024 1) 0 :=
  C8_glow_amended envEx (fun _ => (0 : ℚ)) (buildGrid 2024 1) 0 0 0
    ⟨1, .today⟩ rfl (by decide) rfl

/-- Witness for C2: the 2024 grid at day-of-year 100. -/
theorem C2_status_partition_witness :
    countWithStatus (buildGrid 2024 100) .today = 1
    ∧ (∀ r c cell, r < rowsOf 2024 → c < cols →
        cellAtRC (buildGrid 2024 100) r c = some cell →
          ((cell.day : Int) < 100 → cell.status = .past)
          ∧ ((cell.day : Int) = 100 → cell.status = .today)
          ∧ ((100 : Int) < (cell.day : Int) → cell.status = .future))
    ∧ (∀ r c, r < rowsOf 2024 → c < cols →
        cellAtRC (buildGrid 2024 100) r c =
          seqCell (offsetOf 2024) (totalDaysOf 2024) 100 (r * cols + c)) :=
  C2_status_partition 2024 100 (by decide) (by decide)

/-- Witness for C10: the non-leap year 2023 with out-of-range day 400. -/
theorem C10_out_of_range_day_witness :
    countWithStatus (buildGrid 2023 400) .today = 0
    ∧ (buildGrid 2023 400).length = (buildGrid 2023 1).length
    ∧ (∀ r c, r < rowsOf 2023 → c < cols →
        (cellAtRC (buildGrid 2023 400) r c).map Cell.day =
          (cellAtRC (buildGrid 2023 1) r c).map Cell.day)
    ∧ ((totalDaysOf 2023 : Int) < 400 → ∀ r c cell, r < rowsOf 2023 → c < cols →
        cellAtRC (buildGrid 2023 400) r c = some cell → cell.status = .past)
    ∧ ((400 : Int) < 1 → ∀ r c cell, r < rowsOf 2023 → c < cols →
        cellAtRC (buildGrid 2023 400) r c = some cell → cell.status = .future) :=
  C10_out_of_range_day 2023 400 (by decide)

/-- Witness for C3's amended statement: the 2024 grid on January 1. -/
theorem C3_padding_amended_witness :
    (∀ r c, r < rowsOf 2024 → c < cols →
        cellAtRC (buildGrid 2024 1) r c = none → r = 0 ∨ r = rowsOf 2024 - 1)
    ∧ paddingCountRow0 (buildGrid 2024 1) = offsetOf 2024
    ∧ (¬(0 ≤ (2024 : Int) ∧ (2024 : Int) ≤ 99) →
        offsetOf 2024 = mondayIndexJan1 2024)
    ∧ mondayIndexJan1 2024 = 0 ∧ mondayIndexJan1 2025 = 2 :=
  C3_padding_amended 2024 1

end MementoMori
